import Mathlib

/-!
Shallow embedding of the knowhub resource-placement engine.

Source files embedded:
  - `src/file.ts`     : filesystem primitives (`copyFile`, `copyDirectory`,
                        `symlinkOrCopy`, `writeTextFile`, `pathExists`,
                        `ensureDirectoryExists`)
  - `src/resource.ts` : fetch orchestration (`fetchResources`,
                        `fetchSingleResource`)
  - `src/commands/sync.ts` (the sync command) : placement engine
                        (`placeResourceAtOutput`, `processFetchedResource`,
                        the `runSync` loop over fetched resources)
  - `src/plugins/registry.ts` : `PluginRegistry.loadPlugin` candidate search
  - `src/errors.ts`   : the error taxonomy and `formatError`

Modelling conventions:
  - A filesystem path is a list of components (`Path`).  `node:path`'s
    `dirname` is `List.dropLast`, `join`/`resolve` is list append.
  - The filesystem is a finite association list from paths to nodes (regular
    files with string content, or symbolic links), plus a list of directory
    paths created by `mkdir { recursive: true }`.
  - `stat`-based existence (`pathExists`) reports true when the path holds a
    node or a directory.  (The model does not distinguish a dangling symlink
    from an existing one; no theorem below depends on that distinction.)
  - The OS `symlink(2)` call fails with code `EEXIST` when the destination
    already exists, and with an environment-supplied code when the
    environment does not support symlinks (`Env.symlinkSupported = false`).
    On success it records a link node holding the resolved source path (the
    code stores the equivalent `relative(dirname dest, src)` form).
  - Log output (`console.warn` and the `Logger` interface) is modelled as an
    append-only list of `(level, message)` entries threaded through `World`.
  - `readdir(srcDir, { withFileTypes: true })` is modelled by handing the
    recursive directory-copy the snapshot of the source tree (`DirEnt` list);
    the engine never mutates the source side, so the snapshot agrees with
    re-reading.  Directory entries that are neither files nor directories
    are represented by `DirEnt.other` and skipped, as in the source.
  - Exceptions are modelled with `Except Err`.  On the error path the
    intermediate filesystem mutations preceding the raised error are not
    retained; no claim below depends on a partially-mutated state surviving
    a thrown exception.
-/

set_option linter.unusedVariables false
set_option autoImplicit false

namespace Knowhub

/-- A filesystem path, as a list of components. -/
abbrev Path := List String

/-- `node:path`'s `dirname`. -/
def dirname (p : Path) : Path := p.dropLast

/-- Render a path the way the source interpolates it into messages. -/
def joinPath (p : Path) : String := String.intercalate "/" p

/-- A filesystem node: a regular file with content, or a symbolic link.
The link records the resolved source path (the source stores the
equivalent relative form `relative(dirname dest, src)`). -/
inductive Node where
  | file (content : String)
  | link (target : Path)
  deriving Repr, DecidableEq

/-- The filesystem: an association list of nodes plus the set of
directories created by `mkdir { recursive: true }`. -/
structure FS where
  nodes : List (Path × Node)
  dirs : List Path
  deriving Repr, DecidableEq

/-- Association-list lookup keyed by path. -/
def lookupNode (fs : FS) (p : Path) : Option Node :=
  fs.nodes.lookup p

/-- Insert-or-replace a node at a path (what a write syscall does). -/
def writeNode (fs : FS) (p : Path) (n : Node) : FS :=
  { fs with nodes := (p, n) :: fs.nodes.filter (fun e => e.1 ≠ p) }

/-- All nonempty prefixes of a path: the chain of directories
`mkdir -p` creates. -/
def ancestorDirs (p : Path) : List Path :=
  (List.range p.length).map (fun i => p.take (i + 1))

/-- `mkdir(dirPath, { recursive: true })`: records the directory and all of
its ancestors.  Duplicates are harmless (existence is membership). -/
def mkdirRecursive (fs : FS) (p : Path) : FS :=
  { fs with dirs := fs.dirs ++ ancestorDirs p }

/-- `pathExists` from `src/file.ts`: `stat` succeeds, i.e. the path holds a
node or is a known directory. -/
def pathExists (fs : FS) (p : Path) : Bool :=
  (lookupNode fs p).isSome || fs.dirs.contains p

/-- Log levels of the `Logger` interface plus `console.warn`. -/
inductive LogLevel where
  | info | error | warn | success | skip
  deriving Repr, DecidableEq

structure LogEntry where
  level : LogLevel
  message : String
  deriving Repr, DecidableEq

/-- The mutable world threaded through the engine: the filesystem and the
chronological log. -/
structure World where
  fs : FS
  log : List LogEntry
  deriving Repr, DecidableEq

def logAt (lvl : LogLevel) (msg : String) (w : World) : World :=
  { w with log := w.log ++ [⟨lvl, msg⟩] }

/-! The engine's user-facing message templates, named so theorems can
refer to them; each is the exact template string of the source. -/

def dryRunMsg (p : Path) : String :=
  "[DRY RUN] Would process: " ++ joinPath p

def createdMsg (p : Path) : String :=
  "✓ Created: " ++ joinPath p

def updatedMsg (p : Path) : String :=
  "✓ Updated: " ++ joinPath p

def skipExistsMsg (p : Path) : String :=
  "- Skipped: " ++ joinPath p ++ " (already exists, overwrite: false)"

def skipIdenticalMsg (p : Path) : String :=
  "- Skipped: " ++ joinPath p ++ " (content identical)"

def failedOutputMsg (p : Path) (message : String) : String :=
  "Failed to process output \"" ++ joinPath p ++ "\": " ++ message

def symlinkWarnMsg (code : String) (p : Path) : String :=
  "Symlink failed (" ++ code ++ "), falling back to copy: " ++ joinPath p

def bothFailedMsg (p : Path) : String :=
  "Both symlink and copy operations failed for: " ++ joinPath p

def pluginNotFoundMsg (name : String) : String :=
  "Plugin not found: " ++ name

def fetchPluginFailMsg (name message : String) : String :=
  "Failed to fetch with plugin \"" ++ name ++ "\": " ++ message

def fetchFailMsg (message : String) : String :=
  "Failed to fetch resource: " ++ message

def noValidPluginMsg (pluginPath : String) : String :=
  "Failed to load plugin from " ++ pluginPath ++
    ": No valid plugin found in " ++ pluginPath ++
    ". Plugin must export a class or instance implementing the Plugin interface."

/-- The error taxonomy of `src/errors.ts` (plus plain `Error`s thrown by the
source, modelled as `generic`), restricted to the fields the embedded code
reads: the message and the constructor-specific payloads. -/
inductive Err where
  | fileOp (message filePath operation : String)
  | resource (message : String) (resourcePath : Option String)
  | pluginNotFound (message : String)
  | nodeErr (message code : String)
  | generic (message : String)
  deriving Repr, DecidableEq

/-- `formatError` from `src/errors.ts`: the error's message. -/
def formatError : Err → String
  | .fileOp m _ _ => m
  | .resource m _ => m
  | .pluginNotFound m => m
  | .nodeErr m _ => m
  | .generic m => m

/-- `error instanceof ResourceError`. -/
def isResourceError : Err → Bool
  | .resource _ _ => true
  | _ => false

/-- `readFile` on a path: a file's content, through one level of symbolic
link; `ENOENT` otherwise. -/
def readFile (fs : FS) (p : Path) : Except Err String :=
  match lookupNode fs p with
  | some (.file c) => .ok c
  | some (.link t) =>
      match lookupNode fs t with
      | some (.file c) => .ok c
      | _ => .error (.nodeErr "ENOENT: no such file or directory" "ENOENT")
  | none => .error (.nodeErr "ENOENT: no such file or directory" "ENOENT")

/-- A directory entry as returned by `readdir(..., { withFileTypes: true })`:
a file with its content, a subdirectory with its entries, or anything else
(skipped by the copy loop, which only handles `isFile`/`isDirectory`). -/
inductive DirEnt where
  | file (name : String) (content : String)
  | dir (name : String) (entries : List DirEnt)
  | other (name : String)
  deriving Repr

/-- The execution environment: whether the platform supports symbolic
links (and the error code `symlink(2)` reports when it does not), whether
the platform is win32 (selects junction-style links), and the snapshot of
the directory tree rooted at a source path (what `readdir` traversal of an
unmutated source yields). -/
structure Env where
  symlinkSupported : Bool
  failCode : String
  isWin32 : Bool
  srcTreeOf : Path → List DirEnt

/-- `ensureDirectoryExists` from `src/file.ts`: `mkdir` recursive, swallowing
`EEXIST` (in the model recursive `mkdir` always succeeds). -/
def ensureDirectoryExists (w : World) (dirPath : Path) : World :=
  { w with fs := mkdirRecursive w.fs dirPath }

/-- The body of `copyFile` from `src/file.ts`, abstracted over how the
source bytes are obtained (`getSrc`): the standalone `copyFile` reads the
live filesystem at `src`; the directory-copy loop reads the unmutated
source snapshot.  Branch structure follows the source: existence check,
overwrite-false early return, byte-identity early return, parent-directory
creation, `fs.copyFile`, and the created/updated classification. -/
def copyFileWith (getSrc : Except Err String) (w : World) (dest : Path)
    (overwrite : Bool) : Except Err (World × Bool × Bool) :=
  let ex := pathExists w.fs dest
  if ex && !overwrite then
    .ok (w, false, false)
  else if ex && overwrite then do
    let srcContent ← getSrc
    let destContent ← readFile w.fs dest
    if srcContent == destContent then
      .ok (w, false, false)
    else
      let w1 := ensureDirectoryExists w (dirname dest)
      let c ← getSrc
      let w2 := { w1 with fs := writeNode w1.fs dest (.file c) }
      .ok (w2, false, true)
  else do
    let w1 := ensureDirectoryExists w (dirname dest)
    let c ← getSrc
    let w2 := { w1 with fs := writeNode w1.fs dest (.file c) }
    .ok (w2, true, false)

/-- `copyFile(src, dest, overwrite)` from `src/file.ts`. -/
def copyFile (w : World) (src dest : Path) (overwrite : Bool) :
    Except Err (World × Bool × Bool) :=
  copyFileWith (readFile w.fs src) w dest overwrite

/-- The entry loop of `copyDirectory` from `src/file.ts`, over the source
tree snapshot.  For a subdirectory entry the source re-enters
`copyDirectory`, which first ensures the destination directory exists and
then processes that directory's entries; files accumulate
created-or-updated as `created` and everything else as `skipped`;
non-file non-directory entries are skipped entirely. -/
def copyEntries (overwrite : Bool) :
    List DirEnt → Path → World → Except Err (World × Nat × Nat)
  | [], _, w => .ok (w, 0, 0)
  | .file name content :: rest, destDir, w => do
      let r ← copyFileWith (.ok content) w (destDir ++ [name]) overwrite
      let rest' ← copyEntries overwrite rest destDir r.1
      if r.2.1 || r.2.2 then
        .ok (rest'.1, rest'.2.1 + 1, rest'.2.2)
      else
        .ok (rest'.1, rest'.2.1, rest'.2.2 + 1)
  | .dir name sub :: rest, destDir, w => do
      let w0 := ensureDirectoryExists w (destDir ++ [name])
      let subR ← copyEntries overwrite sub (destDir ++ [name]) w0
      let restR ← copyEntries overwrite rest destDir subR.1
      .ok (restR.1, subR.2.1 + restR.2.1, subR.2.2 + restR.2.2)
  | .other _ :: rest, destDir, w => copyEntries overwrite rest destDir w

/-- `copyDirectory(srcDir, destDir, overwrite)` from `src/file.ts`, with the
source side given as the snapshot of the tree at `srcDir`.  Returns the
world and the `{created, skipped}` counts. -/
def copyDirectory (tree : List DirEnt) (destDir : Path) (overwrite : Bool)
    (w : World) : Except Err (World × Nat × Nat) :=
  copyEntries overwrite tree destDir (ensureDirectoryExists w destDir)

/-- The `symlink(2)` call as `node:fs` exposes it: fails with `EEXIST` when
the destination already exists (the destination is never removed first),
fails with the environment's code when symbolic links are unsupported, and
otherwise records the link. -/
def symlinkCall (env : Env) (fs : FS) (target dest : Path) :
    Except String FS :=
  if pathExists fs dest then .error "EEXIST"
  else if !env.symlinkSupported then .error env.failCode
  else .ok (writeNode fs dest (.link target))

/-- The kind passed to `symlink` (`file` / `dir` / `junction`); computed as
in the source, though the model's `symlinkCall` outcome does not depend
on it. -/
def symlinkKind (env : Env) (isDir : Bool) : String :=
  if isDir then (if env.isWin32 then "junction" else "dir") else "file"

structure SymlinkOutcome where
  created : Bool
  updated : Bool
  usedSymlink : Bool
  deriving Repr, DecidableEq

/-- `symlinkOrCopy(src, dest, overwrite, isDir)` from `src/file.ts`.
`srcTree` is the snapshot of the tree at `src`, used by the
directory-copy fallback. -/
def symlinkOrCopy (env : Env) (w : World) (src : Path) (dest : Path)
    (overwrite isDir : Bool) : Except Err (World × SymlinkOutcome) :=
  let ex := pathExists w.fs dest
  if ex && !overwrite then
    .ok (w, ⟨false, false, false⟩)
  else
    let w0 := ensureDirectoryExists w (dirname dest)
    let kind := symlinkKind env isDir
    match symlinkCall env w0.fs src dest with
    | .ok fs1 =>
        let w1 := { w0 with fs := fs1 }
        if ex && overwrite then .ok (w1, ⟨false, true, true⟩)
        else .ok (w1, ⟨true, false, true⟩)
    | .error code =>
        let w1 := logAt .warn (symlinkWarnMsg code dest) w0
        if isDir then
          match copyDirectory (env.srcTreeOf src) dest overwrite w1 with
          | .ok (w2, created, _skipped) =>
              .ok (w2, ⟨decide (created > 0) && !ex, decide (created > 0) && ex, false⟩)
          | .error _ =>
              .error (.fileOp (bothFailedMsg dest) (joinPath dest) "symlink or copy")
        else
          match copyFile w1 src dest overwrite with
          | .ok (w2, cr, up) => .ok (w2, ⟨cr, up, false⟩)
          | .error _ =>
              .error (.fileOp (bothFailedMsg dest) (joinPath dest) "symlink or copy")

/-- `writeTextFile(dest, content, overwrite)` from `src/file.ts`: same
existence/identity/overwrite logic as `copyFile` but comparing text and
always writing directly (a read failure during the identity check is
swallowed and the write proceeds). -/
def writeTextFile (w : World) (dest : Path) (content : String)
    (overwrite : Bool) : Except Err (World × Bool × Bool) :=
  let ex := pathExists w.fs dest
  if ex && !overwrite then
    .ok (w, false, false)
  else
    let identical :=
      if ex && overwrite then
        match readFile w.fs dest with
        | .ok existing => existing == content
        | .error _ => false
      else false
    if identical then
      .ok (w, false, false)
    else
      let w1 := ensureDirectoryExists w (dirname dest)
      let w2 := { w1 with fs := writeNode w1.fs dest (.file content) }
      if ex && overwrite then .ok (w2, false, true)
      else .ok (w2, true, false)

/-! ### Data model: validated resources and fetched resources -/

/-- A validated resource descriptor (`ValidatedResource` in `src/config.ts`):
plugin name, opaque plugin configuration, normalized overwrite flag and
output paths (already resolved to component lists relative to the project
root, which list-append `resolve` prepends). -/
structure ValidatedResource where
  plugin : String
  pluginConfig : String
  overwrite : Bool
  outputs : List Path
  deriving Repr, DecidableEq

/-- The plugin metadata bag, restricted to the one key the placement engine
reads (`pluginMetadata?.symlink === true`); `none` at the field models a
bag without the key or with a non-boolean value. -/
structure PluginMetadata where
  symlink : Option Bool
  deriving Repr, DecidableEq

/-- `PluginResult` from `src/plugins/types.ts`: every field optional. -/
structure PluginResult where
  content : Option String
  localPath : Option Path
  isDirectory : Option Bool
  metadata : Option PluginMetadata
  deriving Repr, DecidableEq

/-- `FetchedResource` from `src/config.ts` as built by `fetchSingleResource`. -/
structure FetchedResource where
  definition : ValidatedResource
  localPath : Option Path
  isDirectory : Bool
  content : Option String
  pluginMetadata : Option PluginMetadata
  deriving Repr, DecidableEq

/-- `SyncResult` from the sync command: aggregate counts plus the ordered
error-message list. -/
structure SyncResult where
  created : Nat
  updated : Nat
  skipped : Nat
  errors : List String
  deriving Repr, DecidableEq

/-! ### Placement engine (`runSync` / `processFetchedResource` /
`placeResourceAtOutput` in the sync command) -/

/-- `placeResourceAtOutput(fetchedResource, outputPath)`: text write for
content resources; otherwise copy / copy-directory / symlink-or-copy of the
local path, honouring the local plugin's symlink hint; a missing local
path on a non-content resource throws. -/
def placeResourceAtOutput (env : Env) (w : World) (fr : FetchedResource)
    (outputPath : Path) : Except Err (World × Nat × Nat) :=
  let overwrite := fr.definition.overwrite
  match fr.content with
  | some c => do
      let r ← writeTextFile w outputPath c overwrite
      .ok (r.1, r.2.1.toNat, r.2.2.toNat)
  | none =>
    match fr.localPath with
    | none => .error (.generic "Local path is undefined for local resource")
    | some localPath =>
      let symlinkWanted := fr.definition.plugin == "local" &&
        (match fr.pluginMetadata with
         | some m => m.symlink == some true
         | none => false)
      if fr.isDirectory then
        if symlinkWanted then do
          let r ← symlinkOrCopy env w localPath outputPath overwrite true
          .ok (r.1, r.2.created.toNat, r.2.updated.toNat)
        else do
          let r ← copyDirectory (env.srcTreeOf localPath) outputPath overwrite w
          .ok (r.1, r.2.1, 0)
      else
        if symlinkWanted then do
          let r ← symlinkOrCopy env w localPath outputPath overwrite false
          .ok (r.1, r.2.created.toNat, r.2.updated.toNat)
        else do
          let r ← copyFile w localPath outputPath overwrite
          .ok (r.1, r.2.1.toNat, r.2.2.toNat)

/-- The per-output loop of `processFetchedResource`: dry-run logging and
skip, placement, created/updated/skipped classification with the two skip
message templates, and the catch-all that records a formatted error and
continues with the next output. -/
def processOutputs (env : Env) (fr : FetchedResource) (dryRun : Bool) :
    List Path → World → World × SyncResult
  | [], w => (w, ⟨0, 0, 0, []⟩)
  | outputPath :: rest, w =>
    if dryRun then
      let w1 := logAt .info (dryRunMsg outputPath) w
      processOutputs env fr dryRun rest w1
    else
      match placeResourceAtOutput env w fr outputPath with
      | .ok (w1, created, updated) =>
          let w2 :=
            if created > 0 then logAt .success (createdMsg outputPath) w1
            else if updated > 0 then logAt .success (updatedMsg outputPath) w1
            else if !fr.definition.overwrite then
              logAt .skip (skipExistsMsg outputPath) w1
            else
              logAt .skip (skipIdenticalMsg outputPath) w1
          let skippedHere := if created > 0 || updated > 0 then 0 else 1
          let (w3, res) := processOutputs env fr dryRun rest w2
          (w3, ⟨created + res.created, updated + res.updated,
                skippedHere + res.skipped, res.errors⟩)
      | .error e =>
          let fullError := failedOutputMsg outputPath (formatError e)
          let w1 := logAt .error ("✗ " ++ fullError) w
          let (w2, res) := processOutputs env fr dryRun rest w1
          (w2, ⟨res.created, res.updated, res.skipped, fullError :: res.errors⟩)

/-- `processFetchedResource(fetchedResource, projectRoot, dryRun, logger)`:
iterates the resource's declared outputs, never throwing. -/
def processFetchedResource (env : Env) (w : World) (fr : FetchedResource)
    (dryRun : Bool) : World × SyncResult :=
  processOutputs env fr dryRun fr.definition.outputs w

/-- The resource loop of `runSync`: process each fetched resource in order,
accumulating counts and concatenating error lists. -/
def syncFetchedResources (env : Env) (dryRun : Bool) :
    List FetchedResource → World → World × SyncResult
  | [], w => (w, ⟨0, 0, 0, []⟩)
  | fr :: rest, w =>
      let (w1, r) := processFetchedResource env w fr dryRun
      let (w2, rs) := syncFetchedResources env dryRun rest w1
      (w2, ⟨r.created + rs.created, r.updated + rs.updated,
            r.skipped + rs.skipped, r.errors ++ rs.errors⟩)

/-- `runSync` after configuration loading: the fetch stage's outcome is
given as an `Except` value (fetch precedes all placement).  On a fetch
error the catch logs it and returns the zero counts accumulated so far
with the formatted message appended to `errors`; otherwise the placement
loop runs.  (The summary printing is presentation only and not modelled.) -/
def runSyncFetched (env : Env) (dryRun : Bool)
    (fetched : Except Err (List FetchedResource)) (w : World) :
    World × SyncResult :=
  match fetched with
  | .ok frs => syncFetchedResources env dryRun frs w
  | .error e =>
      let m := formatError e
      let w1 := logAt .error ("Error: " ++ m) w
      (w1, ⟨0, 0, 0, [m]⟩)

/-! ### Fetch orchestration (`src/resource.ts`) -/

/-- A registered plugin, restricted to what the orchestrator uses: its name
key and its `fetch` behaviour on the (opaque) plugin configuration.  A
thrown error is the `Except.error` case. -/
structure Plugin where
  name : String
  fetch : String → Except Err PluginResult

/-- The name-keyed registry contents. -/
abbrev Registry := List (String × Plugin)

/-- `PluginRegistry.resolve`: lookup by name, `PluginNotFoundError` if
absent. -/
def resolvePlugin (reg : Registry) (name : String) : Except Err Plugin :=
  match reg.lookup name with
  | some plugin => .ok plugin
  | none => .error (.pluginNotFound (pluginNotFoundMsg name))

/-- `fetchSingleResource` from `src/resource.ts`: resolve the plugin
(outside the try), call `fetch`, and build the `FetchedResource` —
`localPath`/`content`/`metadata` pass through unchanged and `isDirectory`
is `result.isDirectory || false`.  An error thrown by `fetch` is rethrown
unchanged if it is a `ResourceError` and otherwise wrapped into a
`ResourceError` naming the plugin. -/
def fetchSingleResource (reg : Registry) (definition : ValidatedResource) :
    Except Err FetchedResource := do
  let plugin ← resolvePlugin reg definition.plugin
  match plugin.fetch definition.pluginConfig with
  | .ok result =>
      .ok { definition := definition
            localPath := result.localPath
            isDirectory := result.isDirectory.getD false
            content := result.content
            pluginMetadata := result.metadata }
  | .error e =>
      if isResourceError e then .error e
      else
        .error (.resource (fetchPluginFailMsg definition.plugin (formatError e))
                  (some definition.plugin))

/-- `fetchResources` from `src/resource.ts`: sequential loop in input
order; the first failure aborts the whole orchestration, rethrown
unchanged when already a `ResourceError` and otherwise wrapped. -/
def fetchResources (reg : Registry) :
    List ValidatedResource → Except Err (List FetchedResource)
  | [] => .ok []
  | definition :: rest =>
    match fetchSingleResource reg definition with
    | .ok fetched => do
        let fetchedRest ← fetchResources reg rest
        .ok (fetched :: fetchedRest)
    | .error e =>
        if isResourceError e then .error e
        else .error (.resource (fetchFailMsg (formatError e)) none)

/-! ### Dynamic plugin loading (`PluginRegistry.loadPlugin` in
`src/plugins/registry.ts`) -/

/-- The shape-relevant view of a candidate plugin value: its `name`
property (`""` models a missing/falsy name) and whether its `fetch`
property is callable. -/
structure PluginShape where
  name : String
  fetchIsFn : Bool
  deriving Repr, DecidableEq

/-- A module export as the loader inspects it: a function (constructing may
throw — `none` — or yield an instance), a non-null object, or any other
value (`null`, primitives, …), which every check rejects. -/
inductive ExportVal where
  | func (inst : Option PluginShape)
  | obj (v : PluginShape)
  | other
  deriving Repr, DecidableEq

/-- The imported module: its exports in enumeration order (the `default`
export, when present, is the entry keyed `"default"`). -/
structure PluginModule where
  exports : List (String × ExportVal)
  deriving Repr, DecidableEq

def defaultExport (m : PluginModule) : Option ExportVal :=
  m.exports.lookup "default"

/-- The shape check applied to an instance or object candidate:
`v.name && typeof v.fetch === "function"`. -/
def shapeOk (v : PluginShape) : Bool :=
  v.name != "" && v.fetchIsFn

/-- The named-export scan (the loader's final `else` branch): iterate the
module's keys in enumeration order, accepting the first constructible
function whose instance passes the shape check or the first object passing
it; construction failures and other values are skipped. -/
def scanExports : List (String × ExportVal) → Option PluginShape
  | [] => none
  | (_, .func (some v)) :: rest =>
      if shapeOk v then some v else scanExports rest
  | (_, .func none) :: rest => scanExports rest
  | (_, .obj v) :: rest =>
      if shapeOk v then some v else scanExports rest
  | (_, .other) :: rest => scanExports rest

/-- The loader's candidate selection, following its `if`/`else if`/`else`
chain: a function default export is constructed and used only if its
instance passes the shape check (on failure nothing else is tried); an
object default export passing the shape check is used directly; in every
other case all exports are scanned in enumeration order. -/
def selectPlugin (m : PluginModule) : Option PluginShape :=
  match defaultExport m with
  | some (.func inst) =>
      match inst with
      | some v => if shapeOk v then some v else none
      | none => none
  | some (.obj v) =>
      if shapeOk v then some v else scanExports m.exports
  | some .other => scanExports m.exports
  | none => scanExports m.exports

/-- What the loader's two checks accept from a single export: a
constructible function whose instance passes the shape check, or an
object passing it. -/
def exportMatches : ExportVal → Option PluginShape
  | .func (some v) => if shapeOk v then some v else none
  | .func none => none
  | .obj v => if shapeOk v then some v else none
  | .other => none

/-- The registry as `loadPlugin` mutates it: name-keyed insert-or-replace. -/
abbrev ShapeRegistry := List (String × PluginShape)

/-- `PluginRegistry.register`: `Map.set` by `plugin.name`. -/
def registerShape (reg : ShapeRegistry) (v : PluginShape) : ShapeRegistry :=
  if reg.lookup v.name |>.isSome then
    reg.map (fun e => if e.1 = v.name then (v.name, v) else e)
  else
    reg ++ [(v.name, v)]

/-- `PluginRegistry.loadPlugin(pluginPath, projectRoot)` after the dynamic
module load succeeded: select a candidate and register it, or throw — the inner
`No valid plugin found …` error is wrapped by the outer catch into
`Failed to load plugin from …`, and the registry is only mutated on
success. -/
def loadPlugin (reg : ShapeRegistry) (m : PluginModule) (pluginPath : String) :
    Except Err ShapeRegistry :=
  match selectPlugin m with
  | some v => .ok (registerShape reg v)
  | none => .error (.generic (noValidPluginMsg pluginPath))

/-! ### Claim-level predicates -/

/-- The `FetchedResource` data-model invariant stated by the spec: exactly
one of `content` / `localPath` is set, and `isDirectory` is false whenever
`content` is set. -/
def fetchedInvariant (fr : FetchedResource) : Bool :=
  (fr.content.isSome ^^ fr.localPath.isSome) &&
    (!fr.content.isSome || !fr.isDirectory)

/-- The same invariant read off a raw `PluginResult` (with the code's
`isDirectory || false` defaulting). -/
def resultInvariant (r : PluginResult) : Bool :=
  (r.content.isSome ^^ r.localPath.isSome) &&
    (!r.content.isSome || !(r.isDirectory.getD false))

/-! ### Filesystem helper lemmas -/

theorem lookup_filter_ne (l : List (Path × Node)) (p q : Path) (h : q ≠ p) :
    (l.filter (fun e => e.1 ≠ p)).lookup q = l.lookup q := by
  induction l with
  | nil => rfl
  | cons e rest ih =>
    by_cases he : e.1 = p
    · have hq : (q == p) = false := by simpa using h
      simp only [ne_eq, decide_not] at ih ⊢
      simp [List.filter_cons, he, List.lookup, hq]
      simpa using ih
    · by_cases hqe : q = e.1
      · have hq : (q == e.1) = true := by simp [hqe]
        simp only [ne_eq, decide_not] at ih ⊢
        simp [List.filter_cons, he, List.lookup, hq]
      · have hq : (q == e.1) = false := by simpa using hqe
        simp only [ne_eq, decide_not] at ih ⊢
        simp [List.filter_cons, he, List.lookup, hq]
        simpa using ih

theorem lookupNode_writeNode_self (fs : FS) (p : Path) (n : Node) :
    lookupNode (writeNode fs p n) p = some n := by
  simp [lookupNode, writeNode, List.lookup]

theorem lookupNode_writeNode_ne (fs : FS) (p : Path) (n : Node) (q : Path)
    (h : q ≠ p) : lookupNode (writeNode fs p n) q = lookupNode fs q := by
  have hq : (q == p) = false := by simpa using h
  have hf := lookup_filter_ne fs.nodes p q h
  simp only [ne_eq, decide_not] at hf
  simp [lookupNode, writeNode, List.lookup, hq]
  simpa using hf

theorem lookupNode_mkdirRecursive (fs : FS) (d q : Path) :
    lookupNode (mkdirRecursive fs d) q = lookupNode fs q := rfl

theorem pathExists_mkdirRecursive_of (fs : FS) (d q : Path)
    (h : pathExists fs q = true) : pathExists (mkdirRecursive fs d) q = true := by
  simp only [pathExists, mkdirRecursive, Bool.or_eq_true, lookupNode] at h ⊢
  rcases h with h | h
  · exact Or.inl h
  · refine Or.inr ?_
    simp only [List.contains, List.elem_eq_mem, decide_eq_true_eq] at h ⊢
    exact List.mem_append_left _ h

theorem pathExists_writeNode_self (fs : FS) (p : Path) (n : Node) :
    pathExists (writeNode fs p n) p = true := by
  simp [pathExists, lookupNode_writeNode_self]

theorem readFile_of_file (fs : FS) (p : Path) (c : String)
    (h : lookupNode fs p = some (.file c)) : readFile fs p = .ok c := by
  simp [readFile, h]

theorem bindE_ok {α β : Type} (a : α) (f : α → Except Err β) :
    (Except.ok a >>= f) = f a := rfl

theorem bindE_err {α β : Type} (e : Err) (f : α → Except Err β) :
    ((Except.error e : Except Err α) >>= f) = Except.error e := rfl

/-- `copyFile` when the destination exists and overwrite is false: early
no-op return. -/
theorem copyFile_skip_noOverwrite (w : World) (src dest : Path)
    (hex : pathExists w.fs dest = true) :
    copyFile w src dest false = .ok (w, false, false) := by
  simp [copyFile, copyFileWith, hex]

/-- `copyFile` when the destination exists with byte-identical content and
overwrite is true: identity skip, no write. -/
theorem copyFile_skip_identical (w : World) (src dest : Path) (sc : String)
    (hsrc : lookupNode w.fs src = some (.file sc))
    (hdest : lookupNode w.fs dest = some (.file sc)) :
    copyFile w src dest true = .ok (w, false, false) := by
  have hex : pathExists w.fs dest = true := by simp [pathExists, hdest]
  simp [copyFile, copyFileWith, hex, readFile_of_file _ _ _ hsrc,
    readFile_of_file _ _ _ hdest, bindE_ok]

/-- `copyFile` when the destination exists with differing content and
overwrite is true: overwrite, `updated`. -/
theorem copyFile_overwrites (w : World) (src dest : Path) (sc dc : String)
    (hsrc : lookupNode w.fs src = some (.file sc))
    (hdest : lookupNode w.fs dest = some (.file dc)) (hne : dc ≠ sc) :
    copyFile w src dest true =
      .ok ({ w with
              fs := writeNode (mkdirRecursive w.fs (dirname dest)) dest (.file sc) },
           false, true) := by
  have hex : pathExists w.fs dest = true := by simp [pathExists, hdest]
  have hne' : ¬ (sc = dc) := fun hcontra => hne hcontra.symm
  simp [copyFile, copyFileWith, hex, readFile_of_file _ _ _ hsrc,
    readFile_of_file _ _ _ hdest, hne', bindE_ok, ensureDirectoryExists]

/-- `copyFile` when the destination is absent: parent-directory creation
and copy, `created`. -/
theorem copyFile_creates (w : World) (src dest : Path) (sc : String)
    (overwrite : Bool) (hsrc : lookupNode w.fs src = some (.file sc))
    (hex : pathExists w.fs dest = false) :
    copyFile w src dest overwrite =
      .ok ({ w with
              fs := writeNode (mkdirRecursive w.fs (dirname dest)) dest (.file sc) },
           true, false) := by
  simp [copyFile, copyFileWith, hex, readFile_of_file _ _ _ hsrc, bindE_ok,
    ensureDirectoryExists]

/-- A path is never among the directory chain of its own parent (all those
prefixes are strictly shorter). -/
theorem not_mem_ancestorDirs_dirname (p : Path) :
    ¬ p ∈ ancestorDirs (dirname p) := by
  intro hmem
  simp only [ancestorDirs, List.mem_map, List.mem_range] at hmem
  obtain ⟨i, hi, hp⟩ := hmem
  have hlen : ((dirname p).take (i + 1)).length = min (i + 1) (dirname p).length := by
    simp
  rw [hp] at hlen
  have hd : (dirname p).length + 1 ≤ p.length ∨ p.length = 0 := by
    cases p with
    | nil => right; rfl
    | cons a t => left; simp [dirname]
  rcases hd with hd | hd
  · omega
  · have : (dirname p).length = 0 := by
      simp only [dirname] at *
      omega
    omega

theorem pathExists_mkdirRecursive_dirname (fs : FS) (p : Path)
    (h : pathExists fs p = false) :
    pathExists (mkdirRecursive fs (dirname p)) p = false := by
  simp only [pathExists, mkdirRecursive, Bool.or_eq_false_iff, lookupNode] at h ⊢
  refine ⟨h.1, ?_⟩
  have h2 := h.2
  simp only [List.contains, List.elem_eq_mem, decide_eq_false_iff_not,
    List.mem_append] at h2 ⊢
  intro hc
  rcases hc with hc | hc
  · exact h2 hc
  · exact not_mem_ancestorDirs_dirname p hc

/-- In dry-run mode the output loop only logs `[DRY RUN] Would process`
lines: the filesystem is untouched and no output is counted. -/
theorem processOutputs_dryRun (env : Env) (fr : FetchedResource) :
    ∀ (outs : List Path) (w : World),
      processOutputs env fr true outs w =
        ({ w with log := w.log ++ outs.map (fun p => ⟨.info, dryRunMsg p⟩) },
         ⟨0, 0, 0, []⟩) := by
  intro outs
  induction outs with
  | nil => intro w; simp [processOutputs]
  | cons o rest ih =>
    intro w
    simp [processOutputs, logAt, ih]

/-- In dry-run mode the resource loop preserves the filesystem and reports
zero counts and no errors. -/
theorem syncFetchedResources_dryRun (env : Env) :
    ∀ (frs : List FetchedResource) (w : World),
      (syncFetchedResources env true frs w).1.fs = w.fs ∧
      (syncFetchedResources env true frs w).2 = ⟨0, 0, 0, []⟩ := by
  intro frs
  induction frs with
  | nil => intro w; exact ⟨rfl, rfl⟩
  | cons fr rest ih =>
    intro w
    have hp := processOutputs_dryRun env fr fr.definition.outputs w
    have ihw := ih { w with
      log := w.log ++ fr.definition.outputs.map (fun p => ⟨.info, dryRunMsg p⟩) }
    simp [syncFetchedResources, processFetchedResource, hp]
    rw [show (syncFetchedResources env true rest
        { w with
          log := w.log ++ fr.definition.outputs.map (fun p => ⟨.info, dryRunMsg p⟩) }).2 =
        ⟨0, 0, 0, []⟩ from ihw.2]
    exact ⟨ihw.1, rfl, rfl, rfl, rfl⟩

/-- One step of the named-export scan. -/
theorem scanExports_cons (n : String) (val : ExportVal)
    (rest : List (String × ExportVal)) :
    scanExports ((n, val) :: rest) =
      match exportMatches val with
      | some v => some v
      | none => scanExports rest := by
  cases val with
  | func inst =>
    cases inst with
    | none => rfl
    | some v =>
      by_cases hso : shapeOk v = true <;> simp [scanExports, exportMatches, hso]
  | obj v =>
    by_cases hso : shapeOk v = true <;> simp [scanExports, exportMatches, hso]
  | other => rfl

/-! ### Claim theorems -/

/-- C1: `copyFile(src, dest, overwrite)` satisfies its four-case contract:
(i) dest exists and overwrite is false — no write, `{created:false,
updated:false}`; (ii) dest exists, overwrite is true, and the contents of
src and dest are byte-identical — no write, both false; (iii) dest exists,
overwrite is true, contents differ — dest is overwritten with src's
content and `updated` is reported; (iv) dest absent — the parent-directory
chain is created recursively, the file is copied, and `created` is
reported. -/
theorem copyFile_contract (w : World) (src dest : Path) (sc dc : String)
    (hsrc : lookupNode w.fs src = some (.file sc)) :
    (pathExists w.fs dest = true →
      copyFile w src dest false = .ok (w, false, false)) ∧
    (lookupNode w.fs dest = some (.file dc) → dc = sc →
      copyFile w src dest true = .ok (w, false, false)) ∧
    (lookupNode w.fs dest = some (.file dc) → dc ≠ sc →
      copyFile w src dest true =
        .ok ({ w with
                fs := writeNode (mkdirRecursive w.fs (dirname dest)) dest (.file sc) },
             false, true)) ∧
    (∀ overwrite, pathExists w.fs dest = false →
      copyFile w src dest overwrite =
        .ok ({ w with
                fs := writeNode (mkdirRecursive w.fs (dirname dest)) dest (.file sc) },
             true, false)) := by
  refine ⟨?_, ?_, ?_, ?_⟩
  · intro hex
    exact copyFile_skip_noOverwrite w src dest hex
  · intro hdest hdc
    subst hdc
    exact copyFile_skip_identical w src dest dc hsrc hdest
  · intro hdest hdc
    exact copyFile_overwrites w src dest sc dc hsrc hdest hdc
  · intro overwrite hex
    exact copyFile_creates w src dest sc overwrite hsrc hex

/-- C5: with overwrite=true and a single-file output, a second placement
run against unchanged source content performs no write and reports
created=0, updated=0, skipped=1, the skip classified as content-identical:
the first run (destination absent) creates the output, and on the
resulting world the second run returns the world unchanged except for the
identity-skip log entry, with counts 0/0/1. -/
theorem placement_second_run_identity_skip (env : Env) (w : World)
    (src out : Path) (pn cfg sc : String)
    (hsrc : lookupNode w.fs src = some (.file sc))
    (hout : pathExists w.fs out = false)
    (hne : src ≠ out) :
    processFetchedResource env w
        ⟨⟨pn, cfg, true, [out]⟩, some src, false, none, none⟩ false =
      (logAt .success (createdMsg out)
         { w with fs := writeNode (mkdirRecursive w.fs (dirname out)) out (.file sc) },
       ⟨1, 0, 0, []⟩) ∧
    processFetchedResource env
        (logAt .success (createdMsg out)
          { w with fs := writeNode (mkdirRecursive w.fs (dirname out)) out (.file sc) })
        ⟨⟨pn, cfg, true, [out]⟩, some src, false, none, none⟩ false =
      (logAt .skip (skipIdenticalMsg out)
         (logAt .success (createdMsg out)
           { w with fs := writeNode (mkdirRecursive w.fs (dirname out)) out (.file sc) }),
       ⟨0, 0, 1, []⟩) ∧
    (logAt .skip (skipIdenticalMsg out)
        (logAt .success (createdMsg out)
          { w with fs := writeNode (mkdirRecursive w.fs (dirname out)) out (.file sc) })).fs =
      (logAt .success (createdMsg out)
        { w with fs := writeNode (mkdirRecursive w.fs (dirname out)) out (.file sc) }).fs := by
  have hcf := copyFile_creates w src out sc true hsrc hout
  have hsrc1 : lookupNode
      (writeNode (mkdirRecursive w.fs (dirname out)) out (.file sc)) src =
      some (.file sc) := by
    rw [lookupNode_writeNode_ne _ _ _ _ hne, lookupNode_mkdirRecursive]
    exact hsrc
  have hdest1 : lookupNode
      (writeNode (mkdirRecursive w.fs (dirname out)) out (.file sc)) out =
      some (.file sc) := lookupNode_writeNode_self _ _ _
  refine ⟨?_, ?_, rfl⟩
  · simp [processFetchedResource, processOutputs, placeResourceAtOutput, hcf,
      bindE_ok]
  · have hcf2 := copyFile_skip_identical
      (logAt .success (createdMsg out)
        { w with fs := writeNode (mkdirRecursive w.fs (dirname out)) out (.file sc) })
      src out sc hsrc1 hdest1
    simp [processFetchedResource, processOutputs, placeResourceAtOutput, hcf2,
      bindE_ok]

/-- Witness for C5 at a concrete world. -/
theorem placement_second_run_identity_skip_witness :
    processFetchedResource
        ⟨true, "EPERM", false, fun _ => []⟩
        (logAt .success (createdMsg ["out"])
          { fs := writeNode (mkdirRecursive (⟨[(["src"], .file "X")], []⟩ : FS)
                    (dirname ["out"])) ["out"] (.file "X"),
            log := [] })
        ⟨⟨"local", "cfg", true, [["out"]]⟩, some ["src"], false, none, none⟩ false =
      (logAt .skip (skipIdenticalMsg ["out"])
         (logAt .success (createdMsg ["out"])
           { fs := writeNode (mkdirRecursive (⟨[(["src"], .file "X")], []⟩ : FS)
                     (dirname ["out"])) ["out"] (.file "X"),
             log := [] }),
       ⟨0, 0, 1, []⟩) :=
  (placement_second_run_identity_skip ⟨true, "EPERM", false, fun _ => []⟩
      ⟨⟨[(["src"], .file "X")], []⟩, []⟩ ["src"] ["out"] "local" "cfg" "X"
      (by decide) (by decide) (by decide)).2.1

/-- C6: with overwrite=false and a pre-existing destination whose content
differs from the source, placement leaves the filesystem (in particular
the destination's bytes) unchanged and classifies the outcome as
skipped-because-overwrite-false — and that log message is never the
content-identical one. -/
theorem placement_overwrite_false_preserves (env : Env) (w : World)
    (src out : Path) (pn cfg sc dc : String)
    (hsrc : lookupNode w.fs src = some (.file sc))
    (hdest : lookupNode w.fs out = some (.file dc))
    (hdiff : dc ≠ sc) :
    processFetchedResource env w
        ⟨⟨pn, cfg, false, [out]⟩, some src, false, none, none⟩ false =
      (logAt .skip (skipExistsMsg out) w, ⟨0, 0, 1, []⟩) ∧
    (logAt .skip (skipExistsMsg out) w).fs = w.fs ∧
    lookupNode (logAt .skip (skipExistsMsg out) w).fs out = some (.file dc) ∧
    skipExistsMsg out ≠ skipIdenticalMsg out := by
  have hex : pathExists w.fs out = true := by simp [pathExists, hdest]
  have hcf := copyFile_skip_noOverwrite w src out hex
  refine ⟨?_, rfl, hdest, ?_⟩
  · simp [processFetchedResource, processOutputs, placeResourceAtOutput, hcf,
      bindE_ok]
  · intro h
    have hlen := congrArg String.length h
    simp [skipExistsMsg, skipIdenticalMsg, String.length_append] at hlen
    exact absurd hlen (by decide)

/-- Witness for C6 at a concrete world. -/
theorem placement_overwrite_false_preserves_witness :
    processFetchedResource ⟨true, "EPERM", false, fun _ => []⟩
        ⟨⟨[(["src"], .file "X"), (["out"], .file "Y")], []⟩, []⟩
        ⟨⟨"local", "cfg", false, [["out"]]⟩, some ["src"], false, none, none⟩ false =
      (logAt .skip (skipExistsMsg ["out"])
         ⟨⟨[(["src"], .file "X"), (["out"], .file "Y")], []⟩, []⟩,
       ⟨0, 0, 1, []⟩) :=
  (placement_overwrite_false_preserves ⟨true, "EPERM", false, fun _ => []⟩
      ⟨⟨[(["src"], .file "X"), (["out"], .file "Y")], []⟩, []⟩
      ["src"] ["out"] "local" "cfg" "X" "Y"
      (by decide) (by decide) (by decide)).1

/-- C9: with the dry-run flag set, every output is logged as
`[DRY RUN] Would process: <path>` and classified as a no-op — no
filesystem mutation occurs and no output is counted as created, updated
or skipped, so a dry run's returned counts are always 0/0/0 with only the
errors list possibly non-empty (a fetch-stage error contributes its
message). -/
theorem dry_run_contract (env : Env) :
    (∀ (fr : FetchedResource) (w : World),
      processFetchedResource env w fr true =
        ({ w with
           log := w.log ++ fr.definition.outputs.map (fun p => ⟨.info, dryRunMsg p⟩) },
         ⟨0, 0, 0, []⟩)) ∧
    (∀ (fetched : Except Err (List FetchedResource)) (w : World),
      (runSyncFetched env true fetched w).1.fs = w.fs) ∧
    (∀ (fetched : Except Err (List FetchedResource)) (w : World),
      (runSyncFetched env true fetched w).2.created = 0 ∧
      (runSyncFetched env true fetched w).2.updated = 0 ∧
      (runSyncFetched env true fetched w).2.skipped = 0) := by
  refine ⟨fun fr w => processOutputs_dryRun env fr _ w, ?_, ?_⟩
  · intro fetched w
    cases fetched with
    | ok frs => exact (syncFetchedResources_dryRun env frs w).1
    | error e => rfl
  · intro fetched w
    cases fetched with
    | ok frs =>
        have h := (syncFetchedResources_dryRun env frs w).2
        simp [runSyncFetched, h]
    | error e => exact ⟨rfl, rfl, rfl⟩

/-- C3: an exception while placing one output is caught, formatted and
appended to the aggregate error list, and processing continues with the
next output and the next resource; in particular, with three resources
where only the second fails, the first and third outputs are still
created and the aggregate error list has exactly one entry referencing
the failing output. -/
theorem placement_partial_failure_isolation :
    (∀ (env : Env) (fr : FetchedResource) (out : Path) (rest : List Path)
        (w : World) (e : Err),
      placeResourceAtOutput env w fr out = .error e →
      ∃ w2 res,
        processOutputs env fr false rest
            (logAt .error ("✗ " ++ failedOutputMsg out (formatError e)) w) =
          (w2, res) ∧
        processOutputs env fr false (out :: rest) w =
          (w2, ⟨res.created, res.updated, res.skipped,
                failedOutputMsg out (formatError e) :: res.errors⟩)) ∧
    ((syncFetchedResources ⟨true, "EPERM", false, fun _ => []⟩ false
        [⟨⟨"http", "c1", true, [["out1"]]⟩, none, false, some "A", none⟩,
         ⟨⟨"local", "c2", true, [["out2"]]⟩, none, false, none, none⟩,
         ⟨⟨"http", "c3", true, [["out3"]]⟩, none, false, some "C", none⟩]
        ⟨⟨[], []⟩, []⟩).2 =
      ⟨2, 0, 0, [failedOutputMsg ["out2"] "Local path is undefined for local resource"]⟩ ∧
     lookupNode (syncFetchedResources ⟨true, "EPERM", false, fun _ => []⟩ false
        [⟨⟨"http", "c1", true, [["out1"]]⟩, none, false, some "A", none⟩,
         ⟨⟨"local", "c2", true, [["out2"]]⟩, none, false, none, none⟩,
         ⟨⟨"http", "c3", true, [["out3"]]⟩, none, false, some "C", none⟩]
        ⟨⟨[], []⟩, []⟩).1.fs ["out1"] = some (.file "A") ∧
     lookupNode (syncFetchedResources ⟨true, "EPERM", false, fun _ => []⟩ false
        [⟨⟨"http", "c1", true, [["out1"]]⟩, none, false, some "A", none⟩,
         ⟨⟨"local", "c2", true, [["out2"]]⟩, none, false, none, none⟩,
         ⟨⟨"http", "c3", true, [["out3"]]⟩, none, false, some "C", none⟩]
        ⟨⟨[], []⟩, []⟩).1.fs ["out3"] = some (.file "C")) := by
  constructor
  · intro env fr out rest w e herr
    refine ⟨(processOutputs env fr false rest
        (logAt .error ("✗ " ++ failedOutputMsg out (formatError e)) w)).1,
      (processOutputs env fr false rest
        (logAt .error ("✗ " ++ failedOutputMsg out (formatError e)) w)).2,
      rfl, ?_⟩
    simp [processOutputs, herr]
  · exact ⟨by decide, by decide, by decide⟩

/-- Witness for C3: applying the continuation property at a concrete
failing placement. -/
theorem placement_partial_failure_isolation_witness :
    ∃ w2 res,
      processOutputs ⟨true, "EPERM", false, fun _ => []⟩
          ⟨⟨"local", "c2", true, [["out2"]]⟩, none, false, none, none⟩ false []
          (logAt .error
            ("✗ " ++ failedOutputMsg ["out2"]
              (formatError (.generic "Local path is undefined for local resource")))
            ⟨⟨[], []⟩, []⟩) =
        (w2, res) ∧
      processOutputs ⟨true, "EPERM", false, fun _ => []⟩
          ⟨⟨"local", "c2", true, [["out2"]]⟩, none, false, none, none⟩ false
          [["out2"]] ⟨⟨[], []⟩, []⟩ =
        (w2, ⟨res.created, res.updated, res.skipped,
              failedOutputMsg ["out2"]
                  (formatError (.generic "Local path is undefined for local resource")) ::
                res.errors⟩) :=
  placement_partial_failure_isolation.1 ⟨true, "EPERM", false, fun _ => []⟩
    ⟨⟨"local", "c2", true, [["out2"]]⟩, none, false, none, none⟩
    ["out2"] [] ⟨⟨[], []⟩, []⟩
    (.generic "Local path is undefined for local resource") (by rfl)

/-- C2: whenever the symbolic-link creation attempt inside `symlinkOrCopy`
fails (with any code), a warning naming the failure code and destination
is logged, the engine falls back to `copyFile` (files) or `copyDirectory`
(directories) with the same overwrite flag, and the result is
`usedSymlink=false` together with the created/updated outcome the
fallback produced; if the fallback itself fails, a `FileOperationError`
naming the destination is thrown. -/
theorem symlinkOrCopy_fallback_contract (env : Env) (w : World)
    (src dest : Path) (ow : Bool) (code : String)
    (hno : (pathExists w.fs dest && !ow) = false)
    (hfail : symlinkCall env (mkdirRecursive w.fs (dirname dest)) src dest =
      .error code) :
    (symlinkOrCopy env w src dest ow false =
      match copyFile (logAt .warn (symlinkWarnMsg code dest)
          (ensureDirectoryExists w (dirname dest))) src dest ow with
      | .ok (w2, cr, up) => .ok (w2, ⟨cr, up, false⟩)
      | .error _ =>
          .error (.fileOp (bothFailedMsg dest) (joinPath dest) "symlink or copy")) ∧
    (symlinkOrCopy env w src dest ow true =
      match copyDirectory (env.srcTreeOf src) dest ow
          (logAt .warn (symlinkWarnMsg code dest)
            (ensureDirectoryExists w (dirname dest))) with
      | .ok (w2, created, _s) =>
          .ok (w2, ⟨decide (created > 0) && !(pathExists w.fs dest),
                    decide (created > 0) && pathExists w.fs dest, false⟩)
      | .error _ =>
          .error (.fileOp (bothFailedMsg dest) (joinPath dest) "symlink or copy")) := by
  constructor
  · simp [symlinkOrCopy, hno, ensureDirectoryExists] at hfail ⊢
    rw [hfail]
  · simp [symlinkOrCopy, hno, ensureDirectoryExists] at hfail ⊢
    rw [hfail]

/-- Witness for C2: an environment without symlink support falls back to
the file copy. -/
theorem symlinkOrCopy_fallback_contract_witness :
    symlinkOrCopy ⟨false, "EPERM", false, fun _ => []⟩
        ⟨⟨[(["src"], .file "X")], []⟩, []⟩ ["src"] ["out"] true false =
      match copyFile (logAt .warn (symlinkWarnMsg "EPERM" ["out"])
          (ensureDirectoryExists ⟨⟨[(["src"], .file "X")], []⟩, []⟩
            (dirname ["out"]))) ["src"] ["out"] true with
      | .ok (w2, cr, up) => .ok (w2, ⟨cr, up, false⟩)
      | .error _ =>
          .error (.fileOp (bothFailedMsg ["out"]) (joinPath ["out"]) "symlink or copy") :=
  (symlinkOrCopy_fallback_contract ⟨false, "EPERM", false, fun _ => []⟩
      ⟨⟨[(["src"], .file "X")], []⟩, []⟩ ["src"] ["out"] true "EPERM"
      (by decide) (by rfl)).1

/-- C10: when the destination already exists and overwrite is true, the
result of `symlinkOrCopy` never reports `usedSymlink=true`: the
destination is not removed before the attempt, so the symlink call fails
with `EEXIST` on the existing path, and the returned created/updated
outcome comes from the copy fallback. -/
theorem symlinkOrCopy_existing_dest_no_symlink (env : Env) (w : World)
    (src dest : Path) (ow isDir : Bool)
    (hex : pathExists w.fs dest = true) (how : ow = true) :
    (∀ (w' : World) (r : SymlinkOutcome),
      symlinkOrCopy env w src dest ow isDir = .ok (w', r) →
      r.usedSymlink = false) ∧
    symlinkCall env (mkdirRecursive w.fs (dirname dest)) src dest =
      .error "EEXIST" ∧
    (symlinkOrCopy env w src dest ow false =
      match copyFile (logAt .warn (symlinkWarnMsg "EEXIST" dest)
          (ensureDirectoryExists w (dirname dest))) src dest ow with
      | .ok (w2, cr, up) => .ok (w2, ⟨cr, up, false⟩)
      | .error _ =>
          .error (.fileOp (bothFailedMsg dest) (joinPath dest) "symlink or copy")) ∧
    (symlinkOrCopy env w src dest ow true =
      match copyDirectory (env.srcTreeOf src) dest ow
          (logAt .warn (symlinkWarnMsg "EEXIST" dest)
            (ensureDirectoryExists w (dirname dest))) with
      | .ok (w2, created, _s) =>
          .ok (w2, ⟨decide (created > 0) && !(pathExists w.fs dest),
                    decide (created > 0) && pathExists w.fs dest, false⟩)
      | .error _ =>
          .error (.fileOp (bothFailedMsg dest) (joinPath dest) "symlink or copy")) := by
  subst how
  have hmk : pathExists (mkdirRecursive w.fs (dirname dest)) dest = true :=
    pathExists_mkdirRecursive_of _ _ _ hex
  have hfail : symlinkCall env (mkdirRecursive w.fs (dirname dest)) src dest =
      .error "EEXIST" := by
    simp [symlinkCall, hmk]
  refine ⟨?_, hfail, ?_, ?_⟩
  case refine_2 =>
    have hf := hfail
    have hno : (pathExists w.fs dest && !true) = false := by simp
    simp [symlinkOrCopy, hno, ensureDirectoryExists] at hf ⊢
    rw [hf]
  case refine_3 =>
    have hf := hfail
    have hno : (pathExists w.fs dest && !true) = false := by simp
    simp [symlinkOrCopy, hno, ensureDirectoryExists] at hf ⊢
    rw [hf]
  intro w' r h
  have hno : (pathExists w.fs dest && !true) = false := by simp
  rw [symlinkOrCopy] at h
  simp only [hno, Bool.false_eq_true, if_false, ensureDirectoryExists] at h
  rw [hfail] at h
  cases isDir with
  | true =>
      simp at h
      cases hcd : copyDirectory (env.srcTreeOf src) dest true
          (logAt .warn (symlinkWarnMsg "EEXIST" dest)
            { w with fs := mkdirRecursive w.fs (dirname dest) }) with
      | ok t =>
          rw [hcd] at h
          obtain ⟨w2a, t2⟩ := t
          obtain ⟨created, skipped⟩ := t2
          simp at h
          obtain ⟨h1, h2⟩ := h
          subst h2
          rfl
      | error e =>
          rw [hcd] at h
          simp at h
  | false =>
      simp at h
      cases hcf : copyFile
          (logAt .warn (symlinkWarnMsg "EEXIST" dest)
            { w with fs := mkdirRecursive w.fs (dirname dest) }) src dest true with
      | ok t =>
          rw [hcf] at h
          obtain ⟨w2a, t2⟩ := t
          obtain ⟨cr, up⟩ := t2
          simp at h
          obtain ⟨h1, h2⟩ := h
          subst h2
          rfl
      | error e =>
          rw [hcf] at h
          simp at h

/-- Witness for C10: an existing destination with overwrite=true falls
back to copy. -/
theorem symlinkOrCopy_existing_dest_no_symlink_witness :
    symlinkCall ⟨true, "EPERM", false, fun _ => []⟩
        (mkdirRecursive (⟨[(["src"], .file "X"), (["out"], .file "Y")], []⟩ : FS)
          (dirname ["out"])) ["src"] ["out"] =
      .error "EEXIST" :=
  (symlinkOrCopy_existing_dest_no_symlink ⟨true, "EPERM", false, fun _ => []⟩
      ⟨⟨[(["src"], .file "X"), (["out"], .file "Y")], []⟩, []⟩
      ["src"] ["out"] true true (by decide) rfl).2.1

/-- C4: `fetchResources` processes the validated descriptors strictly in
input order; a fetch error aborts the whole orchestration (the result is
independent of every later descriptor); every escaping error is a
`ResourceError`, built by wrapping the underlying error — retaining the
plugin name and underlying message via `fetchSingleResource`'s wrapper —
except that an error that is already a `ResourceError` propagates
unchanged, with no double-wrapping. -/
theorem fetchResources_contract (reg : Registry) :
    (∀ (defs : List ValidatedResource) (frs : List FetchedResource),
      fetchResources reg defs = .ok frs →
      List.Forall₂ (fun d fr => fetchSingleResource reg d = .ok fr) defs frs) ∧
    (∀ (defs : List ValidatedResource) (e : Err),
      fetchResources reg defs = .error e → isResourceError e = true) ∧
    (∀ (xs : List ValidatedResource) (d : ValidatedResource)
        (ys : List ValidatedResource) (e : Err),
      (∀ x ∈ xs, ∃ fr, fetchSingleResource reg x = .ok fr) →
      fetchSingleResource reg d = .error e →
      fetchResources reg (xs ++ d :: ys) =
        .error (if isResourceError e then e
                else .resource (fetchFailMsg (formatError e)) none)) ∧
    (∀ (d : ValidatedResource) (plugin : Plugin) (e : Err),
      reg.lookup d.plugin = some plugin →
      plugin.fetch d.pluginConfig = .error e →
      (isResourceError e = false →
        fetchSingleResource reg d =
          .error (.resource (fetchPluginFailMsg d.plugin (formatError e))
                    (some d.plugin))) ∧
      (isResourceError e = true → fetchSingleResource reg d = .error e)) := by
  refine ⟨?_, ?_, ?_, ?_⟩
  · intro defs
    induction defs with
    | nil =>
      intro frs h
      simp [fetchResources] at h
      rw [h]
      exact List.Forall₂.nil
    | cons d rest ih =>
      intro frs h
      cases hd : fetchSingleResource reg d with
      | ok fr =>
        rw [fetchResources, hd] at h
        cases hrest : fetchResources reg rest with
        | ok frs' =>
          rw [hrest] at h
          simp [bindE_ok] at h
          rw [← h]
          exact List.Forall₂.cons hd (ih frs' hrest)
        | error e =>
          rw [hrest] at h
          simp [bindE_err] at h
      | error e =>
        rw [fetchResources, hd] at h
        by_cases hres : isResourceError e = true <;> simp [hres] at h
  · intro defs
    induction defs with
    | nil => intro e h; simp [fetchResources] at h
    | cons d rest ih =>
      intro e h
      cases hd : fetchSingleResource reg d with
      | ok fr =>
        rw [fetchResources, hd] at h
        cases hrest : fetchResources reg rest with
        | ok frs' => rw [hrest] at h; simp [bindE_ok] at h
        | error e' =>
          rw [hrest] at h
          simp [bindE_err] at h
          rw [← h]
          exact ih e' hrest
      | error e' =>
        rw [fetchResources, hd] at h
        by_cases hres : isResourceError e' = true
        · simp [hres] at h; rw [← h]; exact hres
        · simp [hres] at h; rw [← h]; rfl
  · intro xs
    induction xs with
    | nil =>
      intro d ys e hxs hd
      by_cases hres : isResourceError e = true <;>
        simp [fetchResources, hd, hres]
    | cons x xs ih =>
      intro d ys e hxs hd
      obtain ⟨fr, hfr⟩ := hxs x (List.mem_cons_self x xs)
      have ihx := ih d ys e (fun y hy => hxs y (List.mem_cons_of_mem x hy)) hd
      rw [show (x :: xs) ++ d :: ys = x :: (xs ++ d :: ys) from rfl,
        fetchResources, hfr, ihx]
      rfl
  · intro d plugin e hlookup hfetch
    constructor
    · intro hres
      simp [fetchSingleResource, resolvePlugin, hlookup, hfetch, hres, bindE_ok]
    · intro hres
      simp [fetchSingleResource, resolvePlugin, hlookup, hfetch, hres, bindE_ok]

/-- Witness for C4: a two-resource list where the first fetch throws a
non-resource error aborts with the wrapped `ResourceError` regardless of
the second resource. -/
theorem fetchResources_contract_witness :
    fetchResources [("p", ⟨"p", fun _ => .error (.generic "boom")⟩)]
        [⟨"p", "cfg", true, [["o"]]⟩, ⟨"q", "cfg2", true, [["o2"]]⟩] =
      .error (if isResourceError
          (.resource (fetchPluginFailMsg "p" "boom") (some "p")) then
            (.resource (fetchPluginFailMsg "p" "boom") (some "p"))
          else .resource (fetchFailMsg (formatError
            (.resource (fetchPluginFailMsg "p" "boom") (some "p")))) none) :=
  (fetchResources_contract [("p", ⟨"p", fun _ => .error (.generic "boom")⟩)]).2.2.1
    [] ⟨"p", "cfg", true, [["o"]]⟩ [⟨"q", "cfg2", true, [["o2"]]⟩]
    (.resource (fetchPluginFailMsg "p" "boom") (some "p"))
    (by intro x hx; simp at hx) (by rfl)

/-- C7 counterexample: a module whose default export is a function
producing a shape-failing instance, next to a named export that passes
the shape check.  The claimed candidate search ("first match wins" over
default-as-class, default-as-instance, then named exports) would register
the named export; the code instead fails without scanning the named
exports and leaves the registry unchanged. -/
theorem loadPlugin_first_match_counterexample :
    shapeOk ⟨"plug", true⟩ = true ∧
    scanExports
        [("default", .func (some ⟨"", false⟩)), ("plug", .obj ⟨"plug", true⟩)] =
      some ⟨"plug", true⟩ ∧
    loadPlugin []
        ⟨[("default", .func (some ⟨"", false⟩)), ("plug", .obj ⟨"plug", true⟩)]⟩
        "./my-plugin.js" =
      .error (.generic (noValidPluginMsg "./my-plugin.js")) :=
  ⟨rfl, rfl, rfl⟩

/-- C7 (amended): `loadPlugin` follows the source's `if`/`else if`/`else`
chain: a function default export is the only candidate tried (the result
depends only on its constructed instance — named exports are never
scanned), registering the instance when it passes the shape check; a
plugin-shaped object default export is used directly; when there is no
default export, or the default is neither a function nor a plugin-shaped
object (a shape-failing object, or any other value), all exports are
scanned in enumeration order under the same two checks and the first
match is registered; when no candidate is selected the call fails with an
error naming the offending path and the registry is left unregistered
(an error result carries no registration). -/
theorem loadPlugin_search_contract :
    (∀ (reg : ShapeRegistry) (exps exps' : List (String × ExportVal))
        (inst : Option PluginShape) (path : String),
      exps.lookup "default" = some (.func inst) →
      exps'.lookup "default" = some (.func inst) →
      loadPlugin reg ⟨exps⟩ path = loadPlugin reg ⟨exps'⟩ path) ∧
    (∀ (reg : ShapeRegistry) (exps : List (String × ExportVal))
        (v : PluginShape) (path : String),
      exps.lookup "default" = some (.func (some v)) → shapeOk v = true →
      loadPlugin reg ⟨exps⟩ path = .ok (registerShape reg v)) ∧
    (∀ (pre : List (String × ExportVal)) (n : String) (val : ExportVal)
        (post : List (String × ExportVal)) (v : PluginShape),
      (∀ x ∈ pre, exportMatches x.2 = none) →
      exportMatches val = some v →
      scanExports (pre ++ (n, val) :: post) = some v) ∧
    (∀ (reg : ShapeRegistry) (exps : List (String × ExportVal)) (path : String),
      exps.lookup "default" = none →
      loadPlugin reg ⟨exps⟩ path =
        match scanExports exps with
        | some v => .ok (registerShape reg v)
        | none => .error (.generic (noValidPluginMsg path))) ∧
    (∀ (reg : ShapeRegistry) (m : PluginModule) (path : String),
      selectPlugin m = none →
      loadPlugin reg m path = .error (.generic (noValidPluginMsg path))) ∧
    (∀ (reg : ShapeRegistry) (exps : List (String × ExportVal))
        (v : PluginShape) (path : String),
      exps.lookup "default" = some (.obj v) → shapeOk v = true →
      loadPlugin reg ⟨exps⟩ path = .ok (registerShape reg v)) ∧
    (∀ (reg : ShapeRegistry) (exps : List (String × ExportVal))
        (v : PluginShape) (path : String),
      exps.lookup "default" = some (.obj v) → shapeOk v = false →
      loadPlugin reg ⟨exps⟩ path =
        match scanExports exps with
        | some v' => .ok (registerShape reg v')
        | none => .error (.generic (noValidPluginMsg path))) ∧
    (∀ (reg : ShapeRegistry) (exps : List (String × ExportVal)) (path : String),
      exps.lookup "default" = some .other →
      loadPlugin reg ⟨exps⟩ path =
        match scanExports exps with
        | some v' => .ok (registerShape reg v')
        | none => .error (.generic (noValidPluginMsg path))) := by
  refine ⟨?_, ?_, ?_, ?_, ?_, ?_, ?_, ?_⟩
  · intro reg exps exps' inst path h1 h2
    simp [loadPlugin, selectPlugin, defaultExport, h1, h2]
  · intro reg exps v path h hso
    simp [loadPlugin, selectPlugin, defaultExport, h, hso]
  · intro pre
    induction pre with
    | nil =>
      intro n val post v hpre hm
      rw [List.nil_append, scanExports_cons, hm]
    | cons x pre ih =>
      intro n val post v hpre hm
      obtain ⟨xn, xv⟩ := x
      rw [List.cons_append, scanExports_cons,
        hpre (xn, xv) (List.mem_cons_self _ _)]
      exact ih n val post v (fun y hy => hpre y (List.mem_cons_of_mem _ hy)) hm
  · intro reg exps path h
    cases hscan : scanExports exps <;>
      simp [loadPlugin, selectPlugin, defaultExport, h, hscan]
  · intro reg m path h
    simp [loadPlugin, h]
  · intro reg exps v path h hso
    simp [loadPlugin, selectPlugin, defaultExport, h, hso]
  · intro reg exps v path h hso
    cases hscan : scanExports exps <;>
      simp [loadPlugin, selectPlugin, defaultExport, h, hso, hscan]
  · intro reg exps path h
    cases hscan : scanExports exps <;>
      simp [loadPlugin, selectPlugin, defaultExport, h, hscan]

/-- Witness for C7: a module whose default export constructs a
shape-passing instance registers that instance. -/
theorem loadPlugin_search_contract_witness :
    loadPlugin [] ⟨[("default", .func (some ⟨"p", true⟩))]⟩ "plugin.js" =
      .ok (registerShape [] ⟨"p", true⟩) :=
  loadPlugin_search_contract.2.1 [] [("default", .func (some ⟨"p", true⟩))]
    ⟨"p", true⟩ "plugin.js" (by rfl) (by decide)

/-- C8 counterexample: a plugin result supplying both `content` and
`localPath` (and `isDirectory=true`) passes through `fetchSingleResource`
unchanged, so the produced `FetchedResource` violates the claimed
data-model invariant — the orchestrator does not normalize it away. -/
theorem fetchSingleResource_invariant_counterexample :
    fetchSingleResource
        [("both", ⟨"both", fun _ => .ok ⟨some "x", some ["p"], some true, none⟩⟩)]
        ⟨"both", "cfg", true, [["o"]]⟩ =
      .ok ⟨⟨"both", "cfg", true, [["o"]]⟩, some ["p"], true, some "x", none⟩ ∧
    fetchedInvariant
        ⟨⟨"both", "cfg", true, [["o"]]⟩, some ["p"], true, some "x", none⟩ =
      false :=
  ⟨rfl, rfl⟩

/-- C8 (amended): `fetchSingleResource` copies `content`, `localPath` and
`metadata` through unchanged and only defaults `isDirectory` to false
when the plugin left it unset; consequently the produced
`FetchedResource` satisfies the data-model invariant exactly when the
plugin's own result does — the invariant is preserved, not established. -/
theorem fetchSingleResource_invariant_preserved (reg : Registry)
    (d : ValidatedResource) (plugin : Plugin) (r : PluginResult)
    (hlookup : reg.lookup d.plugin = some plugin)
    (hfetch : plugin.fetch d.pluginConfig = .ok r) :
    fetchSingleResource reg d =
      .ok ⟨d, r.localPath, r.isDirectory.getD false, r.content, r.metadata⟩ ∧
    fetchedInvariant
        ⟨d, r.localPath, r.isDirectory.getD false, r.content, r.metadata⟩ =
      resultInvariant r := by
  constructor
  · simp [fetchSingleResource, resolvePlugin, hlookup, hfetch, bindE_ok]
  · rfl

/-- Witness for C8's amended theorem at a content-only plugin result. -/
theorem fetchSingleResource_invariant_preserved_witness :
    fetchedInvariant
        ⟨⟨"http", "cfg", true, [["o"]]⟩, none, false, some "x", none⟩ =
      resultInvariant ⟨some "x", none, none, none⟩ :=
  (fetchSingleResource_invariant_preserved
      [("http", ⟨"http", fun _ => .ok ⟨some "x", none, none, none⟩⟩)]
      ⟨"http", "cfg", true, [["o"]]⟩
      ⟨"http", fun _ => .ok ⟨some "x", none, none, none⟩⟩
      ⟨some "x", none, none, none⟩ (by rfl) (by rfl)).2

/-- Witness for C1 at a concrete world exercising the overwrite-differing
case. -/
theorem copyFile_contract_witness :
    copyFile ⟨⟨[(["src"], .file "X"), (["out"], .file "Y")], []⟩, []⟩
        ["src"] ["out"] true =
      .ok ({ fs := writeNode
                (mkdirRecursive ⟨[(["src"], .file "X"), (["out"], .file "Y")], []⟩
                  (dirname ["out"]))
                ["out"] (.file "X"),
             log := [] },
           false, true) :=
  (copyFile_contract ⟨⟨[(["src"], .file "X"), (["out"], .file "Y")], []⟩, []⟩
      ["src"] ["out"] "X" "Y" (by decide)).2.2.1 (by decide) (by decide)

end Knowhub
